import Mathlib

/-!
Shallow embedding of `sm_device_tagging.py`: a one-shot reconciliation pass
that classifies managed devices as cellular-capable or Wi-Fi-only from four
nullable evidence fields, plans tag add/remove actions against a tag policy,
and applies the queued identifiers in batches of at most 20 per mutation call.
Remote collaborators (organization list, network directory, device inventory)
are passed in as explicit data.
-/

/-- Default tag for cellular-capable devices (`DEFAULT_CELLULAR_TAG`). -/
def DEFAULT_CELLULAR_TAG : String := "Store_Ipad"

/-- Default tag for Wi-Fi-only devices (`DEFAULT_WIFI_ONLY_TAG`). -/
def DEFAULT_WIFI_ONLY_TAG : String := "Curbside_iPad"

/-- One managed-device snapshot as fetched from the inventory: the unique id
and the fields requested at line 120 of the source. Every field is nullable
in the raw record, modelled with `Option`. -/
structure Device where
  id : Option String
  imei : Option String
  iccid : Option String
  simCarrierNetwork : Option String
  phoneNumber : Option String
  tags : Option (List String)
deriving DecidableEq

/-- The tag policy: `args.cellular_tag` and `args.wifi_tag`. -/
structure TagPolicy where
  cellularTag : String
  wifiTag : String
deriving DecidableEq

/-- The default policy from the CLI defaults. -/
def defaultPolicy : TagPolicy := ⟨DEFAULT_CELLULAR_TAG, DEFAULT_WIFI_ONLY_TAG⟩

/-- Lines 131-133: `device_id = device.get("id"); if not device_id: continue`.
A missing id and the falsy empty string both cause the device to be skipped. -/
def validId (d : Device) : Option String :=
  match d.id with
  | none => none
  | some s => if s = "" then none else some s

/-- Line 142: `has_cell = not all(f is None for f in fields)` over the four
cellular-evidence fields. Only `None`-ness is tested. -/
def hasCell (d : Device) : Bool :=
  d.imei.isSome || d.iccid.isSome || d.simCarrierNetwork.isSome || d.phoneNumber.isSome

/-- Line 144: `current_tags = set(device.get("tags") or [])`; a null or
missing tags field collapses to the empty collection. -/
def currentTags (d : Device) : List String :=
  d.tags.getD []

/-- The derived two-valued capability of the spec. -/
inductive Capability where
  | Cellular
  | WifiOnly
deriving DecidableEq

/-- The capability classifier: `Cellular` exactly when `has_cell` holds. -/
def classify (d : Device) : Capability :=
  if hasCell d then Capability.Cellular else Capability.WifiOnly

/-- The four action queues built by the main loop: `tag_cellular`, `tag_wifi`,
`untag_cellular`, `untag_wifi` (lines 125-126). -/
structure ActionPlan where
  tag_cellular : List String
  tag_wifi : List String
  untag_cellular : List String
  untag_wifi : List String
deriving DecidableEq

/-- The contribution of a single device to the four queues, mirroring one
iteration of the loop at lines 127-173: skip on invalid id; enqueue an add of
the correct tag when it is missing (lines 150-158); when `remove_wrong` is
set, enqueue a removal of the wrong tag when it is present (lines 163-173). -/
def deviceActions (pol : TagPolicy) (remove_wrong : Bool) (d : Device) : ActionPlan :=
  match validId d with
  | none => ⟨[], [], [], []⟩
  | some device_id =>
    let current_tags := currentTags d
    let correct_tag := if hasCell d then pol.cellularTag else pol.wifiTag
    let wrong_tag := if hasCell d then pol.wifiTag else pol.cellularTag
    { tag_cellular :=
        if correct_tag ∉ current_tags ∧ hasCell d = true then [device_id] else []
      tag_wifi :=
        if correct_tag ∉ current_tags ∧ hasCell d = false then [device_id] else []
      untag_cellular :=
        if remove_wrong = true ∧ wrong_tag ∈ current_tags ∧ hasCell d = false then
          [device_id]
        else []
      untag_wifi :=
        if remove_wrong = true ∧ wrong_tag ∈ current_tags ∧ hasCell d = true then
          [device_id]
        else [] }

/-- The reconciliation planner: the loop at lines 127-173 appends each
device contribution to the four queues in input order. -/
def plan (pol : TagPolicy) (remove_wrong : Bool) (devices : List Device) : ActionPlan :=
  { tag_cellular := devices.flatMap fun d => (deviceActions pol remove_wrong d).tag_cellular
    tag_wifi := devices.flatMap fun d => (deviceActions pol remove_wrong d).tag_wifi
    untag_cellular := devices.flatMap fun d => (deviceActions pol remove_wrong d).untag_cellular
    untag_wifi := devices.flatMap fun d => (deviceActions pol remove_wrong d).untag_wifi }

/-- One remote mutation call `modifyNetworkSmDevicesTags(...)` (lines 77-82). -/
structure MutationCall where
  networkId : String
  ids : List String
  tags : List String
  updateAction : String
deriving DecidableEq

/-- Line 74: `max_batch = 20`. -/
def max_batch : Nat := 20

/-- The slicing loop of `batch_modify_tags` (lines 75-76):
`serials[i:i+max_batch]` for `i = 0, 20, 40, ...`. -/
def chunks (l : List String) : List (List String) :=
  match l with
  | [] => []
  | x :: xs => (x :: xs.take (max_batch - 1)) :: chunks (xs.drop (max_batch - 1))
termination_by l.length
decreasing_by simp [List.length_drop, max_batch]; omega

/-- The batch mutation executor (lines 65-82): one mutation call per slice of
at most `max_batch` identifiers, in order, with the single tag and the action. -/
def batch_modify_tags (network_id : String) (serials : List String) (tag : String)
    (action : String) : List MutationCall :=
  (chunks serials).map fun batch => ⟨network_id, batch, [tag], action⟩

/-- An organization record as returned by `getOrganizations`. -/
structure Organization where
  id : String
  name : String
deriving DecidableEq

/-- A network record as returned by `getOrganizationNetworks`. -/
structure Network where
  id : String
  name : String
  productType : String
deriving DecidableEq

/-- Failures of the directory resolver (`ValueError` at lines 50 and 60). -/
inductive ResolveError where
  | orgNotFound (orgName : String)
  | networkNotFound (networkName orgName : String)
deriving DecidableEq

/-- The collaborator call at lines 55-56: the networks of the organization,
server-side filtered to the `systemsManager` product type. -/
def getOrganizationNetworks (networksOf : String → List Network) (orgId : String) :
    List Network :=
  (networksOf orgId).filter fun n => n.productType == "systemsManager"

/-- Case folding used by the name matching, the embedding of the Python
`str.lower()` calls at lines 48 and 57: character-wise lowercasing of the
string contents. -/
def lowercase (s : String) : String := ⟨s.data.map Char.toLower⟩

/-- The directory resolver (lines 38-62): the first organization whose name
matches case-insensitively, then the first `systemsManager` network of that
organization whose name matches case-insensitively; its id is returned. -/
def resolve_network_id (orgs : List Organization) (networksOf : String → List Network)
    (network_name org_name : String) : Except ResolveError String :=
  match orgs.find? (fun o => lowercase o.name == lowercase org_name) with
  | none => Except.error (ResolveError.orgNotFound org_name)
  | some org =>
    match (getOrganizationNetworks networksOf org.id).find?
        (fun n => lowercase n.name == lowercase network_name) with
    | none => Except.error (ResolveError.networkNotFound network_name org_name)
    | some net => Except.ok net.id

/-- Presence in the sense of the spec wording for the classifier claim:
non-null and non-empty. Kept separate from the source-derived `hasCell`,
which tests only non-null, so the two can be compared. -/
def specPresent (f : Option String) : Bool :=
  match f with
  | none => false
  | some s => s ≠ ""

/-- The spec wording of the classifier rule: at least one of the four fields
present in the non-null-and-non-empty sense. -/
def specCellular (d : Device) : Bool :=
  specPresent d.imei || specPresent d.iccid || specPresent d.simCarrierNetwork ||
    specPresent d.phoneNumber

/-- Tag update claimed for idempotence: apply the planned adds and removes of
this one device to its own tag set, leaving every other field unchanged.
The removed tags are dropped and the added tags appended. -/
def applyPlanned (pol : TagPolicy) (remove_wrong : Bool) (d : Device) : Device :=
  let a := deviceActions pol remove_wrong d
  let adds :=
    (if a.tag_cellular = [] then [] else [pol.cellularTag]) ++
      (if a.tag_wifi = [] then [] else [pol.wifiTag])
  let removes :=
    (if a.untag_cellular = [] then [] else [pol.cellularTag]) ++
      (if a.untag_wifi = [] then [] else [pol.wifiTag])
  { d with tags := some (((currentTags d).filter fun t => t ∉ removes) ++ adds) }

/-- Device with a present-but-empty IMEI: non-null, yet empty. -/
def emptyImeiDevice : Device := ⟨some "D0", some "", none, none, none, some []⟩

/-- C1 counterexample: on a snapshot whose IMEI is the empty string and whose
other evidence fields are null, the code classifies `Cellular`, while the
claim (presence requires non-null and non-empty) would classify `WifiOnly`. -/
theorem classify_empty_string_ctrex :
    classify emptyImeiDevice = Capability.Cellular ∧ specCellular emptyImeiDevice = false := by
  constructor <;> rfl

/-- C1 (amended): the classification is `Cellular` exactly when at least one
of the four evidence fields is non-null (an empty string counts as present),
and `WifiOnly` exactly when all four are null; the function is total and
deterministic on every snapshot. -/
theorem classify_iff_nonnull (d : Device) :
    (classify d = Capability.Cellular ↔
      (d.imei ≠ none ∨ d.iccid ≠ none ∨ d.simCarrierNetwork ≠ none ∨ d.phoneNumber ≠ none))
    ∧ (classify d = Capability.WifiOnly ↔
      (d.imei = none ∧ d.iccid = none ∧ d.simCarrierNetwork = none ∧ d.phoneNumber = none)) := by
  obtain ⟨id, imei, iccid, sim, ph, tags⟩ := d
  cases imei <;> cases iccid <;> cases sim <;> cases ph <;>
    simp [classify, hasCell]

/-- Concatenating the chunks restores the input list. -/
theorem chunks_flatten (l : List String) : (chunks l).flatten = l := by
  induction l using chunks.induct with
  | case1 => simp [chunks]
  | case2 x xs ih => rw [chunks]; simp [ih]

/-- The number of chunks is the ceiling of the length over `max_batch`. -/
theorem chunks_length (l : List String) :
    (chunks l).length = (l.length + (max_batch - 1)) / max_batch := by
  induction l using chunks.induct with
  | case1 => simp [chunks, max_batch]
  | case2 x xs ih =>
    rw [chunks]
    simp [max_batch] at ih ⊢
    omega

/-- Every chunk carries at most `max_batch` elements. -/
theorem chunks_le (l : List String) : ∀ c ∈ chunks l, c.length ≤ max_batch := by
  induction l using chunks.induct with
  | case1 => simp [chunks]
  | case2 x xs ih =>
    rw [chunks]
    intro c hc
    rcases List.mem_cons.mp hc with h | h
    · subst h; simp [max_batch]
    · exact ih c h

/-- C2: for N identifiers the executor issues exactly ceil(N/20) mutation
calls, each call carries at most 20 identifiers, and the concatenation of the
submitted batches in call order equals the input list in its original order. -/
theorem batch_modify_tags_spec (network_id : String) (serials : List String)
    (tag action : String) :
    (batch_modify_tags network_id serials tag action).length =
        (serials.length + (max_batch - 1)) / max_batch
    ∧ (∀ c ∈ batch_modify_tags network_id serials tag action, c.ids.length ≤ max_batch)
    ∧ ((batch_modify_tags network_id serials tag action).map MutationCall.ids).flatten
        = serials := by
  refine ⟨?_, ?_, ?_⟩
  · simp [batch_modify_tags, chunks_length]
  · intro c hc
    obtain ⟨b, hb, rfl⟩ := List.mem_map.mp hc
    exact chunks_le serials b hb
  · rw [batch_modify_tags, List.map_map]
    have : (MutationCall.ids ∘ fun batch => (⟨network_id, batch, [tag], action⟩ : MutationCall))
        = id := rfl
    rw [this, List.map_id, chunks_flatten]

/-- C2 witness: the executor on the one-element list issues a single call
within the batch bound whose batches concatenate back to the input. -/
theorem batch_modify_tags_spec_witness :
    (⟨"N", ["a"], ["t"], "add"⟩ : MutationCall).ids.length ≤ max_batch ∧
      ((batch_modify_tags "N" ["a"] "t" "add").map MutationCall.ids).flatten = ["a"] :=
  ⟨(batch_modify_tags_spec "N" ["a"] "t" "add").2.1 _
      (by simp [batch_modify_tags, chunks, max_batch]),
    (batch_modify_tags_spec "N" ["a"] "t" "add").2.2⟩

/-- C3: a cellular-capable device carrying the wifi tag but not the cellular
tag is placed by the planner, with prune enabled, both in the add-cellular
queue and in the remove-wifi queue. -/
theorem mistagged_cellular_add_and_remove (pol : TagPolicy) (devs : List Device)
    (d : Device) (i : String) (hmem : d ∈ devs) (hid : validId d = some i)
    (hcell : hasCell d = true) (hwrong : pol.wifiTag ∈ currentTags d)
    (hmiss : pol.cellularTag ∉ currentTags d) :
    i ∈ (plan pol true devs).tag_cellular ∧ i ∈ (plan pol true devs).untag_wifi := by
  have h1 : (deviceActions pol true d).tag_cellular = [i] := by
    simp [deviceActions, hid, hcell, hmiss]
  have h2 : (deviceActions pol true d).untag_wifi = [i] := by
    simp [deviceActions, hid, hcell, hwrong]
  constructor
  · exact List.mem_flatMap.mpr ⟨d, hmem, by simp [h1]⟩
  · exact List.mem_flatMap.mpr ⟨d, hmem, by simp [h2]⟩

/-- Scenario A device of the spec. -/
def deviceD1 : Device := ⟨some "D1", some "123", none, none, none, some ["Curbside_iPad"]⟩

/-- C3 witness: scenario A, the device D1 under the default policy with prune
enabled lands in both the add-cellular and the remove-wifi queues. -/
theorem mistagged_cellular_add_and_remove_witness :
    "D1" ∈ (plan defaultPolicy true [deviceD1]).tag_cellular ∧
      "D1" ∈ (plan defaultPolicy true [deviceD1]).untag_wifi :=
  mistagged_cellular_add_and_remove defaultPolicy [deviceD1] deviceD1 "D1"
    (by decide) (by decide) (by decide) (by decide) (by decide)

/-- C6: a device that already carries the desired tag of its capability gets
no add action: deleting it from the input leaves the two add queues
unchanged; if it also does not carry the opposite tag, deleting it leaves the
whole plan unchanged, so it appears in no queue at all. -/
theorem correctly_tagged_no_action (pol : TagPolicy) (p : Bool) (xs ys : List Device)
    (d : Device)
    (hcorrect : (if hasCell d then pol.cellularTag else pol.wifiTag) ∈ currentTags d) :
    ((plan pol p (xs ++ d :: ys)).tag_cellular = (plan pol p (xs ++ ys)).tag_cellular
      ∧ (plan pol p (xs ++ d :: ys)).tag_wifi = (plan pol p (xs ++ ys)).tag_wifi)
    ∧ ((if hasCell d then pol.wifiTag else pol.cellularTag) ∉ currentTags d →
        plan pol p (xs ++ d :: ys) = plan pol p (xs ++ ys)) := by
  have h1 : (deviceActions pol p d).tag_cellular = [] := by
    cases hv : validId d <;> simp [deviceActions, hv, hcorrect]
  have h2 : (deviceActions pol p d).tag_wifi = [] := by
    cases hv : validId d <;> simp [deviceActions, hv, hcorrect]
  refine ⟨⟨?_, ?_⟩, fun hw => ?_⟩
  · simp [plan, List.flatMap_append, List.flatMap_cons, h1]
  · simp [plan, List.flatMap_append, List.flatMap_cons, h2]
  · have h3 : deviceActions pol p d = ⟨[], [], [], []⟩ := by
      cases hv : validId d <;> simp [deviceActions, hv, hcorrect, hw]
    simp [plan, List.flatMap_append, List.flatMap_cons, h3]

/-- Scenario C device of the spec. -/
def deviceD3 : Device := ⟨some "D3", some "999", none, none, none, some ["Store_Ipad"]⟩

/-- C6 witness: scenario C, the correctly tagged cellular device D3
contributes nothing to the plan even with prune enabled. -/
theorem correctly_tagged_no_action_witness :
    plan defaultPolicy true ([] ++ deviceD3 :: []) = plan defaultPolicy true ([] ++ []) :=
  (correctly_tagged_no_action defaultPolicy true [] [] deviceD3 (by decide)).2 (by decide)

/-- C8: a snapshot whose id field is null is skipped: deleting it from the
input leaves the plan unchanged, so it appears in no queue and every other
snapshot is processed as before; the planner is total, so no exception. -/
theorem missing_id_skipped (pol : TagPolicy) (p : Bool) (xs ys : List Device)
    (d : Device) (h : d.id = none) :
    plan pol p (xs ++ d :: ys) = plan pol p (xs ++ ys) := by
  have hda : deviceActions pol p d = ⟨[], [], [], []⟩ := by
    simp [deviceActions, validId, h]
  simp [plan, List.flatMap_append, List.flatMap_cons, hda]

/-- Snapshot with no id field (scenario E). -/
def noIdDevice : Device := ⟨none, some "123", none, none, none, some []⟩

/-- C8 witness: scenario E, a snapshot without id contributes nothing. -/
theorem missing_id_skipped_witness :
    plan defaultPolicy true ([] ++ noIdDevice :: []) = plan defaultPolicy true ([] ++ []) :=
  missing_id_skipped defaultPolicy true [] [] noIdDevice rfl

/-- C10: a snapshot whose tags field is null is handled as if its tag set
were empty: it is classified normally, its identifier is enqueued for the add
of its desired tag, and no remove is enqueued for it, prune enabled or not. -/
theorem null_tags_treated_empty (pol : TagPolicy) (p : Bool) (d : Device) (i : String)
    (htags : d.tags = none) (hid : validId d = some i) :
    (hasCell d = true → plan pol p [d] = ⟨[i], [], [], []⟩)
    ∧ (hasCell d = false → plan pol p [d] = ⟨[], [i], [], []⟩) := by
  constructor <;> intro hc <;>
    simp [plan, deviceActions, hid, hc, currentTags, htags]

/-- Snapshot with a null tags field and no cellular evidence. -/
def nullTagsDevice : Device := ⟨some "W", none, none, none, none, none⟩

/-- C10 witness: a Wi-Fi-only snapshot with null tags is enqueued for the
wifi tag add and nothing else. -/
theorem null_tags_treated_empty_witness :
    plan defaultPolicy true [nullTagsDevice] = ⟨[], ["W"], [], []⟩ :=
  (null_tags_treated_empty defaultPolicy true nullTagsDevice "W" rfl (by decide)).2
    (by decide)

/-- Membership in a device contribution pins the id and the capability:
add-cellular and remove-wifi entries come from cellular-capable devices,
add-wifi and remove-cellular entries from Wi-Fi-only devices. -/
theorem deviceActions_sound (pol : TagPolicy) (p : Bool) (d : Device) (i : String) :
    (i ∈ (deviceActions pol p d).tag_cellular → validId d = some i ∧ hasCell d = true)
    ∧ (i ∈ (deviceActions pol p d).tag_wifi → validId d = some i ∧ hasCell d = false)
    ∧ (i ∈ (deviceActions pol p d).untag_cellular → validId d = some i ∧ hasCell d = false)
    ∧ (i ∈ (deviceActions pol p d).untag_wifi → validId d = some i ∧ hasCell d = true) := by
  cases hv : validId d with
  | none => simp [deviceActions, hv]
  | some a =>
    refine ⟨?_, ?_, ?_, ?_⟩ <;> intro h <;> simp only [deviceActions, hv] at h <;>
      split at h <;> simp_all

/-- A duplicate-free `filterMap` image admits at most one preimage per value. -/
theorem nodup_filterMap_unique {α β : Type} {f : α → Option β} {l : List α}
    (h : (l.filterMap f).Nodup) {a b : α} (ha : a ∈ l) (hb : b ∈ l) (hab : a ≠ b)
    {i : β} (hfa : f a = some i) (hfb : f b = some i) : False := by
  induction l with
  | nil => exact absurd ha (List.not_mem_nil a)
  | cons x xs ih =>
    rw [List.filterMap_cons] at h
    cases hfx : f x with
    | none =>
      rw [hfx] at h
      rcases List.mem_cons.mp ha with rfl | ha2
      · rw [hfa] at hfx; cases hfx
      · rcases List.mem_cons.mp hb with rfl | hb2
        · rw [hfb] at hfx; cases hfx
        · exact ih h ha2 hb2
    | some j =>
      rw [hfx] at h
      rcases List.nodup_cons.mp h with ⟨hnotin, hnd⟩
      rcases List.mem_cons.mp ha with rfl | ha2
      · rw [hfa] at hfx
        injection hfx with hji
        rcases List.mem_cons.mp hb with rfl | hb2
        · exact hab rfl
        · exact hnotin (hji ▸ List.mem_filterMap.mpr ⟨b, hb2, hfb⟩)
      · rcases List.mem_cons.mp hb with rfl | hb2
        · rw [hfb] at hfx
          injection hfx with hji
          exact hnotin (hji ▸ List.mem_filterMap.mpr ⟨a, ha2, hfa⟩)
        · exact ih hnd ha2 hb2

/-- C4 (amended): on an input whose processed device identifiers are pairwise
distinct, no identifier appears in both add queues, and none appears in both
remove queues. -/
theorem plan_add_remove_disjoint (pol : TagPolicy) (p : Bool) (devs : List Device)
    (h : (devs.filterMap validId).Nodup) (i : String) :
    ¬(i ∈ (plan pol p devs).tag_cellular ∧ i ∈ (plan pol p devs).tag_wifi)
    ∧ ¬(i ∈ (plan pol p devs).untag_cellular ∧ i ∈ (plan pol p devs).untag_wifi) := by
  simp only [plan]
  constructor <;> rintro ⟨h1, h2⟩
  · obtain ⟨d, hd, hdi⟩ := List.mem_flatMap.mp h1
    obtain ⟨e, he, hei⟩ := List.mem_flatMap.mp h2
    obtain ⟨hdv, hdc⟩ := (deviceActions_sound pol p d i).1 hdi
    obtain ⟨hev, hec⟩ := (deviceActions_sound pol p e i).2.1 hei
    exact nodup_filterMap_unique h hd he
      (fun hde => by rw [hde, hec] at hdc; cases hdc) hdv hev
  · obtain ⟨d, hd, hdi⟩ := List.mem_flatMap.mp h1
    obtain ⟨e, he, hei⟩ := List.mem_flatMap.mp h2
    obtain ⟨hdv, hdc⟩ := (deviceActions_sound pol p d i).2.2.1 hdi
    obtain ⟨hev, hec⟩ := (deviceActions_sound pol p e i).2.2.2 hei
    exact nodup_filterMap_unique h hd he
      (fun hde => by rw [hde, hec] at hdc; cases hdc) hdv hev

/-- Cellular-capable snapshot sharing the id of `dupWifi`. -/
def dupCellular : Device := ⟨some "D", some "1", none, none, none, some []⟩

/-- Wi-Fi-only snapshot sharing the id of `dupCellular`. -/
def dupWifi : Device := ⟨some "D", none, none, none, none, some []⟩

/-- C4 counterexample: on an input list with two snapshots sharing the same
identifier, one cellular-capable and one Wi-Fi-only, the same identifier ends
up in both add queues, so the claim quantified over every input list fails. -/
theorem plan_add_disjoint_ctrex :
    "D" ∈ (plan defaultPolicy true [dupCellular, dupWifi]).tag_cellular ∧
      "D" ∈ (plan defaultPolicy true [dupCellular, dupWifi]).tag_wifi := by
  decide

/-- C4 witness: a concrete duplicate-free input where the disjointness holds. -/
theorem plan_add_remove_disjoint_witness :
    ([deviceD1].filterMap validId).Nodup ∧
      (¬("D1" ∈ (plan defaultPolicy true [deviceD1]).tag_cellular ∧
          "D1" ∈ (plan defaultPolicy true [deviceD1]).tag_wifi)
        ∧ ¬("D1" ∈ (plan defaultPolicy true [deviceD1]).untag_cellular ∧
            "D1" ∈ (plan defaultPolicy true [deviceD1]).untag_wifi)) :=
  ⟨by decide, plan_add_remove_disjoint defaultPolicy true [deviceD1] (by decide) "D1"⟩

/-- C7: on an empty identifier list the executor issues zero mutation calls,
for every network id, tag and action, and returns normally. -/
theorem batch_modify_tags_empty_list (network_id tag action : String) :
    batch_modify_tags network_id [] tag action = [] := by
  simp [batch_modify_tags, chunks]

/-- After applying its own planned adds and removes, a device needs no
further action on a second planning pass, provided the two policy tags are
distinct. -/
theorem deviceActions_applyPlanned (pol : TagPolicy) (p : Bool) (d : Device)
    (hpol : pol.cellularTag ≠ pol.wifiTag) :
    deviceActions pol p (applyPlanned pol p d) = ⟨[], [], [], []⟩ := by
  have hv2 : validId (applyPlanned pol p d) = validId d := rfl
  have hc2 : hasCell (applyPlanned pol p d) = hasCell d := rfl
  cases hv : validId d with
  | none => simp [deviceActions, hv2, hv]
  | some a =>
    simp only [deviceActions, hv2, hv, hc2]
    cases hcell : hasCell d with
    | true =>
      have hne : pol.wifiTag ≠ pol.cellularTag := fun h => hpol h.symm
      have hct : currentTags (applyPlanned pol p d) =
          ((currentTags d).filter fun t =>
              t ∉ ((if (deviceActions pol p d).untag_cellular = [] then []
                  else [pol.cellularTag]) ++
                (if (deviceActions pol p d).untag_wifi = [] then [] else [pol.wifiTag]))) ++
            ((if (deviceActions pol p d).tag_cellular = [] then []
                else [pol.cellularTag]) ++
              (if (deviceActions pol p d).tag_wifi = [] then [] else [pol.wifiTag])) := rfl
      by_cases hmiss : pol.cellularTag ∈ currentTags d <;>
        by_cases hwrong : pol.wifiTag ∈ currentTags d <;>
        cases p <;>
        simp_all [deviceActions, hv, hcell, List.mem_filter]
    | false =>
      have hne : pol.wifiTag ≠ pol.cellularTag := fun h => hpol h.symm
      have hct : currentTags (applyPlanned pol p d) =
          ((currentTags d).filter fun t =>
              t ∉ ((if (deviceActions pol p d).untag_cellular = [] then []
                  else [pol.cellularTag]) ++
                (if (deviceActions pol p d).untag_wifi = [] then [] else [pol.wifiTag]))) ++
            ((if (deviceActions pol p d).tag_cellular = [] then []
                else [pol.cellularTag]) ++
              (if (deviceActions pol p d).tag_wifi = [] then [] else [pol.wifiTag])) := rfl
      by_cases hmiss : pol.wifiTag ∈ currentTags d <;>
        by_cases hwrong : pol.cellularTag ∈ currentTags d <;>
        cases p <;>
        simp_all [deviceActions, hv, hcell, List.mem_filter]

/-- C5 (amended): when the two policy tags are distinct, updating every
device by its own planned adds and removes and planning again, with the same
policy and the same prune setting, yields four empty queues. -/
theorem plan_idempotent (pol : TagPolicy) (p : Bool) (devs : List Device)
    (hpol : pol.cellularTag ≠ pol.wifiTag) :
    plan pol p (devs.map (applyPlanned pol p)) = ⟨[], [], [], []⟩ := by
  have key : ∀ d : Device, deviceActions pol p (applyPlanned pol p d) = ⟨[], [], [], []⟩ :=
    fun d => deviceActions_applyPlanned pol p d hpol
  simp only [plan, ActionPlan.mk.injEq, List.flatMap_eq_nil_iff]
  refine ⟨?_, ?_, ?_, ?_⟩ <;> intro a ha <;>
    obtain ⟨d, -, rfl⟩ := List.mem_map.mp ha <;> simp [key d]

/-- Degenerate policy in which both capabilities map to the same tag; the
CLI accepts it, since the two tag arguments are independent strings. -/
def sharedTagPolicy : TagPolicy := ⟨"T", "T"⟩

/-- Cellular-capable snapshot with no tags, used against `sharedTagPolicy`. -/
def sharedTagDevice : Device := ⟨some "D", some "1", none, none, none, some []⟩

/-- C5 counterexample: with the policy that maps both capabilities to the
tag T and prune enabled, a cellular untagged device first receives T; the
second planning pass then sees T as the wrong wifi tag and queues a remove,
so the second run is not empty and the claim fails as stated. -/
theorem plan_idempotent_ctrex :
    plan sharedTagPolicy true (List.map (applyPlanned sharedTagPolicy true)
        [sharedTagDevice])
      ≠ (⟨[], [], [], []⟩ : ActionPlan) := by
  decide

/-- C5 witness: under the default policy, whose two tags differ, replanning
after the update yields four empty queues on a concrete input. -/
theorem plan_idempotent_witness :
    defaultPolicy.cellularTag ≠ defaultPolicy.wifiTag ∧
      plan defaultPolicy true (List.map (applyPlanned defaultPolicy true) [deviceD1]) =
        (⟨[], [], [], []⟩ : ActionPlan) :=
  ⟨by decide, plan_idempotent defaultPolicy true [deviceD1] (by decide)⟩

/-- C9: name resolution fails exactly when no organization name matches the
requested name after case-folding, or no network of the systemsManager
product type within the matched (first matching) organization has a name
matching the requested one after case-folding; on success the id of the
matched network is returned. -/
theorem resolve_network_id_spec (orgs : List Organization)
    (networksOf : String → List Network) (network_name org_name : String) :
    ((∃ e, resolve_network_id orgs networksOf network_name org_name = Except.error e) ↔
      ((∀ o ∈ orgs, lowercase o.name ≠ lowercase org_name) ∨
        (∃ o, orgs.find? (fun o => lowercase o.name == lowercase org_name) = some o ∧
          ∀ n ∈ networksOf o.id, n.productType = "systemsManager" →
            lowercase n.name ≠ lowercase network_name)))
    ∧ (∀ o n, orgs.find? (fun o => lowercase o.name == lowercase org_name) = some o →
        (getOrganizationNetworks networksOf o.id).find?
            (fun n => lowercase n.name == lowercase network_name) = some n →
        resolve_network_id orgs networksOf network_name org_name = Except.ok n.id) := by
  constructor
  · cases hfo : orgs.find? (fun o => lowercase o.name == lowercase org_name) with
    | none =>
      constructor
      · intro _
        left
        intro o ho
        have := List.find?_eq_none.mp hfo o ho
        simpa using this
      · intro _
        exact ⟨ResolveError.orgNotFound org_name, by simp [resolve_network_id, hfo]⟩
    | some org =>
      cases hfn : (getOrganizationNetworks networksOf org.id).find?
          (fun n => lowercase n.name == lowercase network_name) with
      | none =>
        constructor
        · intro _
          right
          refine ⟨org, rfl, ?_⟩
          intro n hn hpt
          have hmem : n ∈ getOrganizationNetworks networksOf org.id := by
            simp [getOrganizationNetworks, List.mem_filter, hn, hpt]
          have := List.find?_eq_none.mp hfn n hmem
          simpa using this
        · intro _
          exact ⟨ResolveError.networkNotFound network_name org_name,
            by simp [resolve_network_id, hfo, hfn]⟩
      | some net =>
        constructor
        · rintro ⟨e, he⟩
          simp [resolve_network_id, hfo, hfn] at he
        · rintro (hall | ⟨o, ho, hnets⟩)
          · have hmem := List.mem_of_find?_eq_some hfo
            have hsat := List.find?_some hfo
            exact absurd (by simpa using hsat) (hall org hmem)
          · injection ho with ho
            subst ho
            have hmem := List.mem_of_find?_eq_some hfn
            have hsat := List.find?_some hfn
            rw [getOrganizationNetworks, List.mem_filter] at hmem
            exact absurd (by simpa using hsat)
              (hnets net hmem.1 (by simpa using hmem.2))
  · intro o n ho hn
    simp [resolve_network_id, ho, hn]

/-- A one-organization directory for exercising the resolver. -/
def demoOrgs : List Organization := [⟨"O1", "Acme"⟩]

/-- Networks of the demo directory, keyed by organization id. -/
def demoNetworks : String → List Network := fun oid =>
  if oid = "O1" then [⟨"N1", "Stores", "systemsManager"⟩] else []

/-- C9 witness: the resolver matches names case-insensitively in the demo
directory and returns the id of the matched network. -/
theorem resolve_network_id_spec_witness :
    resolve_network_id demoOrgs demoNetworks "stores" "ACME" = Except.ok "N1" :=
  (resolve_network_id_spec demoOrgs demoNetworks "stores" "ACME").2
    ⟨"O1", "Acme"⟩ ⟨"N1", "Stores", "systemsManager"⟩ (by decide) (by decide)
